import Mathlib

/-!
Shallow embedding of the quote-validation core of the repository
(`backend/quote_validator.py` and `backend/smart_quote_extractor.py`).

Modelling conventions:
* Python strings are modelled as `List Char` (`Str`); `len` is the list length
  (the number of code points, as in Python 3).
* Python floats are modelled as rationals (`ℚ`); all float literals appearing
  in the code (0.3, 0.5, …) are exactly representable at the granularity the
  program compares them, so the thresholds behave identically.
* Python dicts are modelled as association lists (`List (String × PyVal)`)
  considered up to `dlookup`; `{**d, k: v}` is `dset`/`dmerge`.
* The message f-strings of the validator are modelled symbolically by the
  inductive `Msg`: distinct Python message templates map to distinct
  constructors carrying the interpolated data.
* The handful of regular expressions used by the code are translated, one by
  one, into executable matching functions on `Str` with the semantics of
  `re.search` / `re.match` / `re.split` on the relevant pattern
  (`re.IGNORECASE` is modelled by case-folding ASCII and Cyrillic letters,
  the alphabets the patterns and data use).
-/

/-- Python strings, modelled as their list of characters. -/
abbrev Str : Type := List Char

/-- The characters `str.strip()` / `\s` treat as whitespace
(space, tab, LF, CR, FF, VT). -/
def pyIsSpace (c : Char) : Bool :=
  c = ' ' || c = Char.ofNat 9 || c = Char.ofNat 10 || c = Char.ofNat 13 ||
  c = Char.ofNat 12 || c = Char.ofNat 11

/-- Python `str.strip()`: remove leading and trailing whitespace. -/
def pyStrip (s : Str) : Str :=
  ((s.dropWhile pyIsSpace).reverse.dropWhile pyIsSpace).reverse

/-- Python `str.rstrip()` on whitespace (used to decide `X\s*$` searches). -/
def rstripWs (s : Str) : Str :=
  (s.reverse.dropWhile pyIsSpace).reverse

/-- Python `str.isspace()`: non-empty and all whitespace. -/
def pyIsSpaceStr (s : Str) : Bool :=
  !s.isEmpty && s.all pyIsSpace

/-- Case folding for `re.IGNORECASE` / `str.lower()` over the alphabets in
use: ASCII `A`-`Z` and Cyrillic `А`-`Я`, `Ё`. -/
def pyLower (c : Char) : Char :=
  if 65 ≤ c.toNat ∧ c.toNat ≤ 90 then Char.ofNat (c.toNat + 32)
  else if 0x410 ≤ c.toNat ∧ c.toNat ≤ 0x42F then Char.ofNat (c.toNat + 32)
  else if c.toNat = 0x401 then Char.ofNat 0x451
  else c

/-- Lower-case a whole string. -/
def lowerStr (s : Str) : Str := s.map pyLower

/-- Python `\w` over the alphabets in use: ASCII alphanumerics, `_`,
and the Cyrillic block. -/
def isWordChar (c : Char) : Bool :=
  c.isAlphanum || c = '_' || (0x400 ≤ c.toNat && c.toNat ≤ 0x4FF)

/-- The character list of a Lean string literal. -/
def strChars (s : String) : Str := s.data

/-- Lemma: `dropWhile` never lengthens a list (helper). -/
theorem dropWhileLenLe (p : Char → Bool) (l : List Char) :
    (l.dropWhile p).length ≤ l.length := by
  induction l with
  | nil => simp
  | cons c t ih =>
    by_cases h : p c
    · rw [List.dropWhile_cons_of_pos h]
      exact Nat.le_succ_of_le ih
    · rw [List.dropWhile_cons_of_neg h]

/-- Worker for `re.sub(r'\s+', ' ', s)`: `inRun` records whether the
previous character was whitespace (a run already emitted its space). -/
def squashWsAux : Bool → Str → Str
  | _, [] => []
  | inRun, c :: rest =>
    if pyIsSpace c then
      if inRun then squashWsAux true rest
      else ' ' :: squashWsAux true rest
    else c :: squashWsAux false rest

/-- Python `re.sub(r'\s+', ' ', s)`: collapse every whitespace run to one space. -/
def squashWs (s : Str) : Str := squashWsAux false s

/-- Python `re.sub(r'\s+', ' ', s).strip()`, the cleanup of `_validate_basic`. -/
def normalizeWs (s : Str) : Str := pyStrip (squashWs s)

/-- Worker for Python `str.split()`: `acc` holds the reversed current word
(empty while scanning separators). -/
def pySplitWsAux : Str → Str → List Str
  | acc, [] => if acc.isEmpty then [] else [acc.reverse]
  | acc, c :: rest =>
    if pyIsSpace c then
      if acc.isEmpty then pySplitWsAux [] rest
      else acc.reverse :: pySplitWsAux [] rest
    else pySplitWsAux (c :: acc) rest

/-- Python `str.split()` (no argument): split on whitespace runs,
discarding empty pieces. -/
def pySplitWs (s : Str) : List Str := pySplitWsAux [] s

/-- A sentence-final character, the lookbehind class `[.!?]`. -/
def isSentEnd (c : Char) : Bool := c = '.' || c = '!' || c = '?'

/-- Worker for `re.split(r'(?<=[.!?])\s+', s)`: `acc` holds the reversed
current piece; a whitespace run directly after `.`/`!`/`?` is a split point
and is consumed whole (greedy `\s+`), which `inSplit` tracks. -/
def splitSentencesAux : Bool → Str → Str → List Str
  | _, acc, [] => [acc.reverse]
  | inSplit, acc, c :: rest =>
    if inSplit && pyIsSpace c then splitSentencesAux true acc rest
    else if pyIsSpace c && (match acc with | p :: _ => isSentEnd p | [] => false) then
      acc.reverse :: splitSentencesAux true [] rest
    else splitSentencesAux false (c :: acc) rest

/-- Python `re.split(r'(?<=[.!?])\s+', s)`, the sentence split of the optimizer. -/
def splitSentences (s : Str) : List Str := splitSentencesAux false [] s

/-- Occurrence of `needle` as a contiguous substring (`re.search` on a
pattern of plain characters). -/
def hasSub (needle : Str) : Str → Bool
  | [] => needle.isPrefixOf []
  | s@(_ :: rest) => needle.isPrefixOf s || hasSub needle rest

/-- Python `re.search` of `w` followed by whitespace then a digit, i.e. the patterns
`w\s+\d+` (`oneOrMore = true`) and `w\s*\d+` (`oneOrMore = false`); a single
digit witnesses `\d+`. -/
def hasWordWsDigits (w : Str) (oneOrMore : Bool) : Str → Bool
  | [] => false
  | s@(_ :: rest) =>
    (w.isPrefixOf s &&
      (let r := s.drop w.length
       (!oneOrMore || !(r.takeWhile pyIsSpace).isEmpty) &&
       (match r.dropWhile pyIsSpace with
        | d :: _ => d.isDigit
        | [] => false)))
    || hasWordWsDigits w oneOrMore rest

/-- Worker for `wordRuns`: `acc` holds the reversed current run. -/
def wordRunsAux : Str → Str → List Str
  | acc, [] => if acc.isEmpty then [] else [acc.reverse]
  | acc, c :: rest =>
    if isWordChar c then wordRunsAux (c :: acc) rest
    else if acc.isEmpty then wordRunsAux [] rest
    else acc.reverse :: wordRunsAux [] rest

/-- The maximal runs of `\w` characters of a string; a pattern of the shape
`\b…\b` matches exactly when some run has the required shape. -/
def wordRuns (s : Str) : List Str := wordRunsAux [] s

/-- The sources of `QuoteValidator.FORBIDDEN_PATTERNS`, in order. -/
def FORBIDDEN_PATTERNS : List String :=
  ["scan to download", "www\\.", "https?://", "глава\\s+\\d+", "оглавление",
   "содержание", "page\\s+\\d+", "стр\\.\\s*\\d+", "©", "copyright",
   "\\bизд\\b", "издательство"]

/-- Python `re.search(FORBIDDEN_PATTERNS[idx], quote, re.IGNORECASE)`, pattern by
pattern. -/
def matchesForbidden (idx : Nat) (quote : Str) : Bool :=
  let t := lowerStr quote
  match idx with
  | 0 => hasSub (strChars "scan to download") t
  | 1 => hasSub (strChars "www.") t
  | 2 => hasSub (strChars "http://") t || hasSub (strChars "https://") t
  | 3 => hasWordWsDigits (strChars "глава") true t
  | 4 => hasSub (strChars "оглавление") t
  | 5 => hasSub (strChars "содержание") t
  | 6 => hasWordWsDigits (strChars "page") true t
  | 7 => hasWordWsDigits (strChars "стр.") false t
  | 8 => hasSub (strChars "©") t
  | 9 => hasSub (strChars "copyright") t
  | 10 => (wordRuns t).contains (strChars "изд")
  | _ => hasSub (strChars "издательство") t

/-- The indices of the forbidden patterns found in `quote`
(the `forbidden_found` loop of `_validate_basic`). -/
def forbiddenIdx (quote : Str) : List Nat :=
  (List.range 12).filter (fun i => matchesForbidden i quote)

/-- Python `re.search(r'c\s*$', s)`: some occurrence of `c` followed only by
whitespace up to the end (`$` also matches before a final newline, which the
`\s*` subsumes). -/
def endsAfterWs (c : Char) (s : Str) : Bool :=
  match (rstripWs s).getLast? with
  | some d => d = c
  | none => false

/-- Python `re.search(r'\.\.\.$', s)`: the string ends with `...`, optionally
before a final newline. -/
def endsDots (s : Str) : Bool :=
  (strChars "...").isSuffixOf s || (strChars "...\n").isSuffixOf s

/-- The indices of `QuoteValidator.INCOMPLETE_MARKERS` matching `quote`:
`\.\.\.$`, `,\s*$`, `:\s*$`, `—\s*$`, `\*\s*$`. -/
def incompleteFound (quote : Str) : List Nat :=
  (List.range 5).filter (fun i =>
    match i with
    | 0 => endsDots quote
    | 1 => endsAfterWs ',' quote
    | 2 => endsAfterWs ':' quote
    | 3 => endsAfterWs (Char.ofNat 0x2014) quote
    | _ => endsAfterWs '*' quote)

/-- The verb suffixes of the first verb pattern of
`_validate_meaningfulness` (infinitives and third person). -/
def VERB_SUFFIXES1 : List Str :=
  ["ать", "ить", "еть", "уть", "ют", "ит", "ет", "ут", "ят", "ат"].map strChars

/-- The verb suffixes of the second verb pattern (past tense). -/
def VERB_SUFFIXES2 : List Str :=
  ["ал", "ил", "ел", "ала", "ила", "ела", "али", "или", "ели"].map strChars

/-- Python `re.search(r'\b\w+(suf₁|…)\b', t)` on a lowercased string: some maximal
word run ends with one of the suffixes and is strictly longer than it. -/
def matchesVerbSuffixes (sufs : List Str) (t : Str) : Bool :=
  (wordRuns t).any (fun w => sufs.any (fun suf =>
    suf.isSuffixOf w && suf.length < w.length))

/-- The `has_verbs` heuristic of `_validate_meaningfulness`. -/
def hasVerbs (quote : Str) : Bool :=
  let t := lowerStr quote
  matchesVerbSuffixes VERB_SUFFIXES1 t || matchesVerbSuffixes VERB_SUFFIXES2 t

/-- Python `w.isdigit()`: non-empty and all digits. -/
def isDigitStr (w : Str) : Bool := !w.isEmpty && w.all Char.isDigit

/-- The message strings of `quote_validator.py`, modelled symbolically:
one constructor per message template, carrying the interpolated data. -/
inductive Msg where
  /-- The message "Цитата слишком короткая (… символов, минимум …)" -/
  | tooShort (length minLength : Nat)
  /-- The message "Найдены запрещенные паттерны: …" (indices into FORBIDDEN_PATTERNS) -/
  | forbiddenMsg (found : List Nat)
  /-- The message "Пустая цитата" -/
  | emptyQuote
  /-- The message "Базовая валидация пройдена" -/
  | basicPassed
  /-- The message "Слишком мало слов (…), не похоже на осмысленную цитату" -/
  | tooFewWords (n : Nat)
  /-- The message "Цитата не прошла проверку на осмысленность" -/
  | notMeaningful
  /-- The message "Цитата прошла с предупреждениями" -/
  | meaningWarning
  /-- The message "Цитата осмысленная и завершенная" -/
  | meaningPassed
  /-- The message "Цитата оптимизирована для Threads (… символов)" -/
  | threadsOptimized (n : Nat)
  /-- The message "Низкое итоговое качество (score: …)" -/
  | lowQuality (score : ℚ)
  /-- The message "Среднее качество (score: …)" -/
  | mediumQuality (score : ℚ)
  /-- The message "Отличное качество! (score: …)" -/
  | excellentQuality (score : ℚ)
  deriving DecidableEq

/-- Python values, as far as the validated records use them: ints, floats
(as ℚ), bools, strings, lists, dicts (association lists) and messages. -/
inductive PyVal where
  | int (n : Int)
  | rat (q : ℚ)
  | bool (b : Bool)
  | str (s : Str)
  | valList (l : List PyVal)
  | dict (d : List (String × PyVal))
  | msg (m : Msg)
  | pyNone

/-- A Python dict, considered up to `dlookup`. -/
abbrev PyDict : Type := List (String × PyVal)

/-- Dict lookup (first binding wins). -/
def dlookup (d : PyDict) (k : String) : Option PyVal :=
  match d with
  | [] => none
  | (k2, v) :: rest => if k2 = k then some v else dlookup rest k

/-- Remove every binding of `k` (helper for `dset`). -/
def eraseKey (d : PyDict) (k : String) : PyDict :=
  match d with
  | [] => []
  | (k1, v) :: rest => if k1 = k then eraseKey rest k else (k1, v) :: eraseKey rest k

/-- Python `{**d, k: v}` at the `dlookup` level. -/
def dset (d : PyDict) (k : String) (v : PyVal) : PyDict :=
  (k, v) :: eraseKey d k

/-- Python `{**base, k₁: v₁, …, kₙ: vₙ}`: apply the updates in order. -/
def dmerge (base : PyDict) (updates : PyDict) : PyDict :=
  updates.foldl (fun d kv => dset d kv.1 kv.2) base

/-- Python `d.get(k, "")` for a string field (non-string values, on which the
Python code would raise before returning, read as `""`). -/
def dgetStr (d : PyDict) (k : String) : Str :=
  match dlookup d k with
  | some (.str s) => s
  | _ => []

/-- Python `d.get(k, {})` for a dict field. -/
def dgetDict (d : PyDict) (k : String) : PyDict :=
  match dlookup d k with
  | some (.dict m) => m
  | _ => []

/-- Python `d[k]` for a numeric field (guarded by `k in d` at every use site). -/
def dgetRat (d : PyDict) (k : String) : ℚ :=
  match dlookup d k with
  | some (.rat q) => q
  | some (.int n) => (n : ℚ)
  | _ => 0

/-- Python `d.get(k, default)`. -/
def dgetVal (d : PyDict) (k : String) (default : PyVal) : PyVal :=
  (dlookup d k).getD default

/-- Python `ValidationStage` of `quote_validator.py`. -/
inductive ValidationStage where
  | basic
  | meaningfulness
  | threads_optimization
  | final_quality
  deriving DecidableEq

/-- Python `ValidationStage.value` (the Enum value string). -/
def ValidationStage.value : ValidationStage → String
  | .basic => "basic"
  | .meaningfulness => "meaningfulness"
  | .threads_optimization => "threads_optimization"
  | .final_quality => "final_quality"

/-- Python `ValidationStatus` of `quote_validator.py`. -/
inductive ValidationStatus where
  | passed
  | failed
  | warning
  | optimized
  deriving DecidableEq

/-- Python `ValidationStatus.value` (the Enum value string). -/
def ValidationStatus.value : ValidationStatus → String
  | .passed => "passed"
  | .failed => "failed"
  | .warning => "warning"
  | .optimized => "optimized"

/-- The `ValidationResult` dataclass. -/
structure ValidationResult where
  stage : ValidationStage
  status : ValidationStatus
  message : Msg
  quote : Str
  score : ℚ
  details : PyDict

/-- The `QuoteValidator` class; its only instance state is the `use_ai`
flag set in `__init__` (and never read by the pipeline). -/
structure QuoteValidator where
  use_ai : Bool := true

/-- Python `QuoteValidator.THREADS_MAX_LENGTH`. -/
def THREADS_MAX_LENGTH : Nat := 500

/-- Python `QuoteValidator.MIN_MEANINGFUL_LENGTH`. -/
def MIN_MEANINGFUL_LENGTH : Nat := 30

/-- Python `QuoteValidator.OPTIMAL_LENGTH_RANGE`. -/
def OPTIMAL_LENGTH_RANGE : Nat × Nat := (100, 400)

/-- Python `QuoteValidator._validate_basic`. -/
def validateBasic (v : QuoteValidator) (quote : Str) : ValidationResult :=
  let length := quote.length
  let details : PyDict := dset [] "length" (.int length)
  if length < MIN_MEANINGFUL_LENGTH then
    { stage := .basic, status := .failed, message := .tooShort length MIN_MEANINGFUL_LENGTH,
      quote := quote, score := 0, details := details }
  else
    let score : ℚ := 1
    let score := if length > THREADS_MAX_LENGTH then score * (1/2) else score
    let details := if length > THREADS_MAX_LENGTH then dset details "too_long" (.bool true) else details
    let found := forbiddenIdx quote
    if !found.isEmpty then
      let details := dset details "forbidden_patterns"
        (.valList (found.map (fun i => .str (strChars (FORBIDDEN_PATTERNS.getD i "")))))
      { stage := .basic, status := .failed, message := .forbiddenMsg found,
        quote := quote, score := 0, details := details }
    else if quote.isEmpty || pyIsSpaceStr quote then
      { stage := .basic, status := .failed, message := .emptyQuote,
        quote := quote, score := 0, details := details }
    else
      let cleaned := normalizeWs quote
      let details := dset details "cleaned" (.bool (cleaned != quote))
      { stage := .basic, status := .passed, message := .basicPassed,
        quote := cleaned, score := score, details := details }

/-- Python `endswith(('.', '!', '?', '…', '"', "'"))` of `_validate_meaningfulness`. -/
def properEnding (quote : Str) : Bool :=
  match quote.getLast? with
  | some c => c = '.' || c = '!' || c = '?' || c = Char.ofNat 0x2026 ||
      c = Char.ofNat 34 || c = Char.ofNat 39
  | none => false

/-- Python `QuoteValidator._validate_meaningfulness` (the `use_ai` flag is never
consulted: the stage is the pure heuristic below). -/
def validateMeaningfulness (v : QuoteValidator) (quote : Str) (quote_data : PyDict) :
    ValidationResult :=
  let score : ℚ := 1
  let hasEnd := properEnding quote
  let details : PyDict := dset [] "has_proper_ending" (.bool hasEnd)
  let score := if !hasEnd then score * (3/10) else score
  let details := if !hasEnd then
      dset details "ending_issue" (.str (strChars "Нет правильного окончания"))
    else details
  let markers := incompleteFound quote
  let details := if !markers.isEmpty then
      dset details "incomplete_markers" (.valList (markers.map (fun i => .int i)))
    else details
  let score := if !markers.isEmpty then score * (1/5) else score
  let hv := hasVerbs quote
  let details := dset details "has_verbs" (.bool hv)
  let score := if !hv then score * (7/10) else score
  let details := if !hv then
      dset details "verb_issue" (.str (strChars "Возможно, не полное предложение (нет глаголов)"))
    else details
  let words := pySplitWs quote
  let wordCount := words.length
  let details := dset details "word_count" (.int wordCount)
  if wordCount < 5 then
    { stage := .meaningfulness, status := .failed, message := .tooFewWords wordCount,
      quote := quote, score := 0, details := details }
  else
    let meaningfulWords := words.filter (fun w => w.length > 3 && !isDigitStr w)
    let meaningfulFrac : ℚ :=
      if wordCount > 0 then (meaningfulWords.length : ℚ) / (wordCount : ℚ) else 0
    let details := dset details "meaningful_words_ratio" (.rat meaningfulFrac)
    let score := if meaningfulFrac < 1/2 then score * (1/2) else score
    let details := if meaningfulFrac < 1/2 then
        dset details "content_issue" (.str (strChars "Мало осмысленных слов"))
      else details
    if score < 1/2 then
      { stage := .meaningfulness, status := .failed, message := .notMeaningful,
        quote := quote, score := score, details := details }
    else if score < 4/5 then
      { stage := .meaningfulness, status := .warning, message := .meaningWarning,
        quote := quote, score := score, details := details }
    else
      { stage := .meaningfulness, status := .passed, message := .meaningPassed,
        quote := quote, score := score, details := details }

/-- The sentence-accumulation loop of `_optimize_for_threads`: append
sentences (plus a separating space) while the limit is kept; `break`
at the first sentence that does not fit. -/
def buildBySentences : List Str → Str → Str
  | [], acc => acc
  | s :: rest, acc =>
    if acc.length + s.length + 1 ≤ THREADS_MAX_LENGTH then
      buildBySentences rest (acc ++ s ++ [' '])
    else acc

/-- The word-accumulation fallback loop of `_optimize_for_threads`
(limit `THREADS_MAX_LENGTH - 3`, leaving room for `"..."`). -/
def buildByWords : List Str → Str → Str
  | [], acc => acc
  | w :: rest, acc =>
    if acc.length + w.length + 1 ≤ THREADS_MAX_LENGTH - 3 then
      buildByWords rest (acc ++ w ++ [' '])
    else acc

/-- Python `QuoteValidator._optimize_for_threads`. -/
def optimizeForThreads (v : QuoteValidator) (quote : Str) (quote_data : PyDict) :
    ValidationResult :=
  let length := quote.length
  let details : PyDict := dset [] "original_length" (.int length)
  let step1 : Str × PyDict × ℚ :=
    if length > THREADS_MAX_LENGTH then
      let sentences := splitSentences quote
      let opt1 := pyStrip (buildBySentences sentences [])
      let optimized :=
        if opt1.length < MIN_MEANINGFUL_LENGTH then
          pyStrip (buildByWords (pySplitWs quote) []) ++ strChars "..."
        else opt1
      let details := dset details "was_truncated" (.bool true)
      let details := dset details "new_length" (.int optimized.length)
      (optimized, details, (4/5 : ℚ))
    else (quote, details, 1)
  let optimized := step1.1
  let details := step1.2.1
  let score := step1.2.2
  let step2 : PyDict × ℚ :=
    if OPTIMAL_LENGTH_RANGE.1 ≤ optimized.length ∧ optimized.length ≤ OPTIMAL_LENGTH_RANGE.2 then
      (dset details "optimal_length" (.bool true), min score 1)
    else if optimized.length < OPTIMAL_LENGTH_RANGE.1 then
      (dset details "shorter_than_optimal" (.bool true), score * (9/10))
    else
      (dset details "longer_than_optimal" (.bool true), score * (19/20))
  let details := step2.1
  let score := step2.2
  let longWords := (pySplitWs optimized).filter (fun w => w.length > 20)
  let details := if !longWords.isEmpty then
      dset details "long_words" (.valList (longWords.map .str))
    else details
  let score := if !longWords.isEmpty then score * (9/10) else score
  let status := if length ≠ optimized.length then ValidationStatus.optimized
    else ValidationStatus.passed
  { stage := .threads_optimization, status := status,
    message := .threadsOptimized optimized.length,
    quote := optimized, score := score, details := details }

/-- Python `QuoteValidator._validate_final_quality`. -/
def validateFinalQuality (v : QuoteValidator) (quote : Str) (quote_data : PyDict) :
    ValidationResult :=
  let length := quote.length
  let details : PyDict := dset [] "final_length" (.int length)
  let details := dset details "within_threads_limit" (.bool (length ≤ THREADS_MAX_LENGTH))
  let meta := dgetDict quote_data "meta"
  let score : ℚ := 1
  let step1 : PyDict × ℚ :=
    if (dlookup meta "confidence").isSome then
      let confidence := dgetRat meta "confidence"
      (dset details "confidence" (.rat confidence), score * confidence)
    else (details, score)
  let details := step1.1
  let score := step1.2
  let step2 : PyDict × ℚ :=
    if (dlookup meta "practical_value").isSome then
      let pv := dgetRat meta "practical_value"
      (dset details "practical_value" (.rat pv), score * (1/2 + pv * (1/2)))
    else (details, score)
  let details := step2.1
  let score := step2.2
  let step3 : PyDict × ℚ :=
    if (dlookup meta "completeness").isSome then
      let cp := dgetRat meta "completeness"
      (dset details "completeness" (.rat cp), score * (7/10 + cp * (3/10)))
    else (details, score)
  let details := step3.1
  let score := step3.2
  let details := dset details "category" (dgetVal quote_data "category" (.str []))
  let details := dset details "style" (dgetVal quote_data "style" (.str []))
  let details := dset details "final_score" (.rat score)
  if score < 1/2 then
    { stage := .final_quality, status := .failed, message := .lowQuality score,
      quote := quote, score := score, details := details }
  else if score < 7/10 then
    { stage := .final_quality, status := .warning, message := .mediumQuality score,
      quote := quote, score := score, details := details }
  else
    { stage := .final_quality, status := .passed, message := .excellentQuality score,
      quote := quote, score := score, details := details }

/-- Python `QuoteValidator.validate_full_pipeline`: returns `(passed, results)`;
`results` is the stage-keyed dict, modelled as the association list built
in insertion order. -/
def validateFullPipeline (v : QuoteValidator) (quote_data : PyDict) :
    Bool × List (ValidationStage × ValidationResult) :=
  let quote_text := pyStrip (dgetStr quote_data "quote")
  let r1 := validateBasic v quote_text
  if r1.status = .failed then (false, [(ValidationStage.basic, r1)])
  else
    let r2 := validateMeaningfulness v r1.quote quote_data
    if r2.status = .failed then
      (false, [(ValidationStage.basic, r1), (ValidationStage.meaningfulness, r2)])
    else
      let r3 := optimizeForThreads v r2.quote quote_data
      let r4 := validateFinalQuality v r3.quote quote_data
      let results := [(ValidationStage.basic, r1), (ValidationStage.meaningfulness, r2),
        (ValidationStage.threads_optimization, r3), (ValidationStage.final_quality, r4)]
      let passed := results.all (fun p =>
        [ValidationStatus.passed, ValidationStatus.optimized,
          ValidationStatus.warning].contains p.2.status)
      (passed, results)

/-- Lookup in the stage-keyed results dict. -/
def rlookup (rs : List (ValidationStage × ValidationResult)) (st : ValidationStage) :
    Option ValidationResult :=
  match rs with
  | [] => none
  | (s, r) :: rest => if s = st then some r else rlookup rest st

/-- A placeholder `ValidationResult`; `results[stage]` is modelled as
`(rlookup …).getD defaultResult` at the two use sites, where the lookup is
proved to succeed whenever the pipeline passed (Python would raise a
`KeyError` otherwise, which cannot happen). -/
def defaultResult : ValidationResult :=
  { stage := .basic, status := .failed, message := .emptyQuote,
    quote := [], score := 0, details := [] }

/-- The per-stage entry of the `validation_stages` audit dict of
`get_validated_quote`. -/
def stageAudit (p : ValidationStage × ValidationResult) : String × PyVal :=
  (p.1.value, .dict [("status", .str (strChars p.2.status.value)),
    ("score", .rat p.2.score), ("message", .msg p.2.message),
    ("details", .dict p.2.details)])

/-- Python `QuoteValidator.get_validated_quote`. -/
def getValidatedQuote (v : QuoteValidator) (quote_data : PyDict) : Option PyDict :=
  let pr := validateFullPipeline v quote_data
  if pr.1 = false then none
  else
    let optimized := ((rlookup pr.2 .threads_optimization).getD defaultResult).quote
    let finalScore := ((rlookup pr.2 .final_quality).getD defaultResult).score
    let newMeta := dmerge (dgetDict quote_data "meta")
      [("validated", .bool true), ("validation_score", .rat finalScore),
       ("threads_ready", .bool true), ("final_length", .int optimized.length),
       ("validation_stages", .dict (pr.2.map stageAudit))]
    some (dmerge quote_data
      [("quote", .str optimized), ("translated", .str optimized),
       ("meta", .dict newMeta)])

/-- Python `QuoteType` of `smart_quote_extractor.py`. -/
inductive QuoteType where
  | full_paragraph
  | half_paragraph
  | specific_quote
  | multiple_sentences
  deriving DecidableEq

/-- Python `QuoteType.value`. -/
def QuoteType.value : QuoteType → String
  | .full_paragraph => "full_paragraph"
  | .half_paragraph => "half_paragraph"
  | .specific_quote => "specific_quote"
  | .multiple_sentences => "multiple_sentences"

/-- Python `QuoteQuality` of `smart_quote_extractor.py`. -/
inductive QuoteQuality where
  | excellent
  | good
  | average
  | poor
  deriving DecidableEq

/-- The `QuoteAnalysis` dataclass. -/
structure QuoteAnalysis where
  text : Str
  quote_type : QuoteType
  quality : QuoteQuality
  confidence : ℚ
  context_score : ℚ
  practical_value : ℚ
  completeness : ℚ
  target_audience : Str
  category : Str
  sentiment : Str
  reasoning : Str
  summary : Str := []

/-- The characters kept by `_clean_text`, i.e. the class
`[\w\s.,!?;:()\-—""''«»]` (everything else is removed). -/
def isAllowedChar (c : Char) : Bool :=
  isWordChar c || pyIsSpace c ||
  ['.', ',', '!', '?', ';', ':', '(', ')', '-', Char.ofNat 0x2014,
   Char.ofNat 34, Char.ofNat 39, Char.ofNat 0xAB, Char.ofNat 0xBB].contains c

/-- Python `SmartQuoteExtractor._clean_text`: collapse whitespace, drop the
technical-artifact characters, strip. -/
def cleanText (text : Str) : Str :=
  pyStrip ((squashWs text).filter isAllowedChar)

/-- The full-word alternatives of the `has_commands` pattern
`\b(делай|нужно|должен|можно|следует|важно)\b`. -/
def COMMAND_WORDS : List Str :=
  ["делай", "нужно", "должен", "можно", "следует", "важно"].map strChars

/-- The dict returned by `_analyze_paragraph_structure`. -/
structure ParagraphShape where
  sentence_count : Nat
  total_length : Nat
  avg_sentence_length : ℚ
  sentences : List Str
  has_questions : Bool
  has_commands : Bool
  has_examples : Bool

/-- Python `SmartQuoteExtractor._analyze_paragraph_structure`. -/
def analyzeParagraphShape (paragraph : Str) : ParagraphShape :=
  let sentences := ((splitSentences paragraph).map pyStrip).filter (fun s => !s.isEmpty)
  { sentence_count := sentences.length
    total_length := paragraph.length
    avg_sentence_length :=
      if sentences.length = 0 then 0
      else ((sentences.map List.length).sum : ℚ) / (sentences.length : ℚ)
    sentences := sentences
    has_questions := sentences.any (fun s => s.contains '?')
    has_commands := sentences.any (fun s =>
      (wordRuns (lowerStr s)).any (fun w => COMMAND_WORDS.contains w))
    has_examples := sentences.any (fun s =>
      hasSub (strChars "например") (lowerStr s) ||
      hasSub (strChars "например,") (lowerStr s)) }

/-- Python `re.match(r'^\d+\.', t)`: leading digits followed by a dot. -/
def startsNumDot (t : Str) : Bool :=
  let ds := t.takeWhile Char.isDigit
  !ds.isEmpty && (match t.drop ds.length with
    | c :: _ => c = '.'
    | [] => false)

/-- Python `re.match` of `w` then `\s+\d+` anchored at the start of the string. -/
def startsWordWsDigits (w : Str) (t : Str) : Bool :=
  w.isPrefixOf t &&
    (let r := t.drop w.length
     !(r.takeWhile pyIsSpace).isEmpty &&
     (match r.dropWhile pyIsSpace with
      | d :: _ => d.isDigit
      | [] => false))

/-- The full-word alternatives of the three `meaningful_indicators`
patterns of `_is_meaningful_sentence`. -/
def MEANINGFUL_WORDS : List Str :=
  ["продаж", "маркетинг", "бизнес", "клиент", "доход", "прибыль", "воронк",
   "конвер", "важно", "нужно", "должен", "можно", "следует", "рекомендуется",
   "результат", "эффект", "успех", "проблема", "решение"].map strChars

/-- Python `SmartQuoteExtractor._is_meaningful_sentence`. -/
def isMeaningfulSentence (sentence : Str) : Bool :=
  let t := lowerStr sentence
  if startsNumDot t || startsWordWsDigits (strChars "глава") t ||
      startsWordWsDigits (strChars "страница") t ||
      startsWordWsDigits (strChars "рисунок") t ||
      startsWordWsDigits (strChars "таблица") t then
    false
  else
    (wordRuns t).any (fun w => MEANINGFUL_WORDS.contains w)

/-- Python `' '.join(pieces)`. -/
def joinSpace : List Str → Str
  | [] => []
  | [s] => s
  | s :: rest => s ++ ' ' :: joinSpace rest

/-- Python `' '.join(sentences[i:i+2])` for `i = 0 … len-2`. -/
def pairGroups : List Str → List Str
  | s1 :: s2 :: rest => joinSpace [s1, s2] :: pairGroups (s2 :: rest)
  | _ => []

/-- Python `SmartQuoteExtractor._extract_quote_candidates`; the final
`list(set(candidates))` (an unordered set; no claim depends on its order)
is modelled as duplicate removal. -/
def extractQuoteCandidates (paragraph : Str) (shape : ParagraphShape) : List Str :=
  let sentences := shape.sentences
  let c1 : List Str := if paragraph.length ≤ 400 then [paragraph] else []
  let midPoint := sentences.length / 2
  let halves : List Str :=
    if midPoint > 0 then
      let firstHalf := joinSpace (sentences.take midPoint)
      let secondHalf := joinSpace (sentences.drop midPoint)
      (if firstHalf.length ≥ 50 then [firstHalf] else []) ++
      (if secondHalf.length ≥ 50 then [secondHalf] else [])
    else []
  let singles := sentences.filter (fun s => s.length ≥ 30 && isMeaningfulSentence s)
  let groups := (pairGroups sentences).filter (fun g => g.length ≥ 50)
  (c1 ++ halves ++ singles ++ groups).dedup

/-- The type of `_analyze_quote_quality` viewed as an oracle: it consults
external LLMs (Claude, then GPT, then the heuristic fallback), so the
embedding treats it as an arbitrary function of (candidate, full context,
page number); every theorem below holds for every oracle. -/
abbrev QualityOracle : Type := Str → Str → Option Int → QuoteAnalysis

/-- Descending-confidence ordering used by the two `sort`s
(`reverse=True` on the `confidence` key). -/
def confGe (a b : QuoteAnalysis) : Prop := b.confidence ≤ a.confidence

instance : DecidableRel confGe := fun a b =>
  inferInstanceAs (Decidable (b.confidence ≤ a.confidence))

instance : IsTotal QuoteAnalysis confGe :=
  ⟨fun a b => le_total b.confidence a.confidence⟩

instance : IsTrans QuoteAnalysis confGe :=
  ⟨fun _ _ _ h1 h2 => le_trans h2 h1⟩

/-- Python `SmartQuoteExtractor.analyze_paragraph` (Python's stable sort with
`reverse=True` is the stable insertion sort on `confGe`). -/
def analyzeParagraph (oracle : QualityOracle) (paragraph : Str) (page_num : Option Int) :
    List QuoteAnalysis :=
  if (pyStrip paragraph).isEmpty then []
  else
    let cleaned := cleanText paragraph
    let shape := analyzeParagraphShape cleaned
    let candidates := extractQuoteCandidates cleaned shape
    let analyzed := (candidates.map (fun c => oracle c cleaned page_num)).filter
      (fun a => a.quality != QuoteQuality.poor)
    (List.insertionSort confGe analyzed).take 3

/-- Worker for `re.split(r'\n\s*\n', chunk)`: `acc` is the reversed current
piece. While the optional state is `some (buf, sinceNl, seen2)`, a newline
has been read and the whitespace run after it is being buffered: `buf` is
the reversed run read so far (opening newline included), `sinceNl` its
reversed tail after the last newline, and `seen2` whether a second newline
occurred (making the run a split point, greedily extended to its last
newline). -/
def splitParasAux : Str → Option (Str × Str × Bool) → Str → List Str
  | acc, none, [] => [acc.reverse]
  | acc, some (buf, sinceNl, seen2), [] =>
    if seen2 then [acc.reverse, sinceNl.reverse]
    else [(buf ++ acc).reverse]
  | acc, none, c :: rest =>
    if c = Char.ofNat 10 then splitParasAux acc (some ([c], [], false)) rest
    else splitParasAux (c :: acc) none rest
  | acc, some (buf, sinceNl, seen2), c :: rest =>
    if c = Char.ofNat 10 then splitParasAux acc (some (c :: buf, [], true)) rest
    else if pyIsSpace c then
      splitParasAux acc (some (c :: buf, c :: sinceNl, seen2)) rest
    else if seen2 then
      acc.reverse :: splitParasAux (c :: sinceNl) none rest
    else splitParasAux (c :: (buf ++ acc)) none rest

/-- Python `re.split(r'\n\s*\n', chunk)`, the paragraph split of
`extract_smart_quotes`. -/
def splitParas (chunk : Str) : List Str := splitParasAux [] none chunk

/-- The `quote_data` record built for one accepted analysis inside
`extract_smart_quotes`. -/
def quoteRecord (page : Int) (paragraph : Str) (a : QuoteAnalysis) : PyDict :=
  [("page", .int page), ("original", .str paragraph), ("quote", .str a.text),
   ("translated", .str a.text), ("summary", .str a.summary),
   ("engaging", .bool (a.quality == QuoteQuality.excellent)),
   ("category", .str a.category), ("style", .str (strChars "insight")),
   ("meta", .dict
     [("sentiment", .str a.sentiment), ("target_audience", .str a.target_audience),
      ("length", .int a.text.length), ("confidence", .rat a.confidence),
      ("context_score", .rat a.context_score),
      ("practical_value", .rat a.practical_value),
      ("completeness", .rat a.completeness),
      ("quote_type", .str (strChars a.quote_type.value)),
      ("reasoning", .str a.reasoning)])]

/-- The `all_quotes` list accumulated by `extract_smart_quotes` before
deduplication: all excellent/good analyses of all paragraphs of all
chunks, in traversal order. -/
def allQuotes (oracle : QualityOracle) (text_chunks : List Str) (page_numbers : List Int) :
    List PyDict :=
  (text_chunks.zip page_numbers).flatMap (fun cp =>
    (splitParas cp.1).flatMap (fun paragraph =>
      if (pyStrip paragraph).isEmpty then []
      else
        (analyzeParagraph oracle paragraph (some cp.2)).filterMap (fun a =>
          if a.quality == QuoteQuality.excellent || a.quality == QuoteQuality.good then
            some (quoteRecord cp.2 paragraph a)
          else none)))

/-- Python `x['meta']['confidence']` of a quote record (the sort key). -/
def getConf (q : PyDict) : ℚ :=
  match dlookup (dgetDict q "meta") "confidence" with
  | some (.rat c) => c
  | _ => 0

/-- Python `quote['quote'].strip()`, the deduplication key. -/
def quoteKey (q : PyDict) : Str := pyStrip (dgetStr q "quote")

/-- Descending-confidence ordering on quote records. -/
def confGeQ (a b : PyDict) : Prop := getConf b ≤ getConf a

instance : DecidableRel confGeQ := fun a b =>
  inferInstanceAs (Decidable (getConf b ≤ getConf a))

instance : IsTotal PyDict confGeQ := ⟨fun a b => le_total (getConf b) (getConf a)⟩

instance : IsTrans PyDict confGeQ := ⟨fun _ _ _ h1 h2 => le_trans h2 h1⟩

/-- The `seen_quotes` loop of `extract_smart_quotes`: keep the first record
for each stripped quote text. -/
def dedupQuotes : List PyDict → List Str → List PyDict
  | [], _ => []
  | q :: rest, seen =>
    if quoteKey q ∈ seen then dedupQuotes rest seen
    else q :: dedupQuotes rest (quoteKey q :: seen)

/-- Python `SmartQuoteExtractor.extract_smart_quotes`. -/
def extractSmartQuotes (oracle : QualityOracle) (text_chunks : List Str)
    (page_numbers : List Int) : List PyDict :=
  dedupQuotes (List.insertionSort confGeQ (allQuotes oracle text_chunks page_numbers)) []

/-! ### Helper lemmas -/

/-- Python `dropWhile` is idempotent. -/
theorem dropWhileIdem (p : Char → Bool) (l : List Char) :
    (l.dropWhile p).dropWhile p = l.dropWhile p := by
  induction l with
  | nil => simp
  | cons c t ih =>
    by_cases h : p c
    · rw [List.dropWhile_cons_of_pos h]
      exact ih
    · rw [List.dropWhile_cons_of_neg h, List.dropWhile_cons_of_neg h]

/-- The head of `dropWhile p l` does not satisfy `p`. -/
theorem headDropWhileNot (p : Char → Bool) (l : List Char) (x : Char)
    (h : (l.dropWhile p).head? = some x) : p x = false := by
  induction l with
  | nil => simp at h
  | cons c t ih =>
    by_cases hc : p c
    · rw [List.dropWhile_cons_of_pos hc] at h
      exact ih h
    · rw [List.dropWhile_cons_of_neg hc] at h
      simp only [List.head?_cons, Option.some.injEq] at h
      subst h
      simpa using hc

/-- A list whose head fails `p` is unchanged by `dropWhile p`. -/
theorem dropWhileHeadFalse (p : Char → Bool) (l : List Char)
    (h : ∀ x, l.head? = some x → p x = false) : l.dropWhile p = l := by
  cases l with
  | nil => simp
  | cons c t =>
    have := h c rfl
    rw [List.dropWhile_cons_of_neg (by simp [this])]

/-- If `dropWhile p l` is non-empty its last element is the last element
of `l`. -/
theorem getLastDropWhile (p : Char → Bool) (l : List Char)
    (h : l.dropWhile p ≠ []) : (l.dropWhile p).getLast? = l.getLast? := by
  induction l with
  | nil => simp at h
  | cons c t ih =>
    by_cases hc : p c
    · rw [List.dropWhile_cons_of_pos hc] at h ⊢
      have ht : t ≠ [] := by
        intro he
        exact h (by simp [he])
      rw [ih h]
      cases t with
      | nil => exact absurd rfl ht
      | cons d t2 => simp [List.getLast?_cons_cons]
    · rw [List.dropWhile_cons_of_neg hc]

/-- Python `pyStrip` never lengthens a string. -/
theorem pyStripLenLe (s : Str) : (pyStrip s).length ≤ s.length := by
  unfold pyStrip
  calc ((s.dropWhile pyIsSpace).reverse.dropWhile pyIsSpace).reverse.length
      = ((s.dropWhile pyIsSpace).reverse.dropWhile pyIsSpace).length := by simp
    _ ≤ (s.dropWhile pyIsSpace).reverse.length := dropWhileLenLe _ _
    _ = (s.dropWhile pyIsSpace).length := by simp
    _ ≤ s.length := dropWhileLenLe _ _

/-- An all-whitespace string strips to the empty string. -/
theorem pyStripAllSpace (s : Str) (h : s.all pyIsSpace = true) : pyStrip s = [] := by
  have h1 : s.dropWhile pyIsSpace = [] := by
    rw [List.dropWhile_eq_nil_iff]
    intro x hx
    exact List.all_eq_true.1 h x hx
  simp [pyStrip, h1]

/-- Python `pyStrip` is idempotent. -/
theorem pyStripIdem (s : Str) : pyStrip (pyStrip s) = pyStrip s := by
  unfold pyStrip
  set p := pyIsSpace
  set A := s.dropWhile p with hA
  set B := A.reverse.dropWhile p with hB
  have hBdrop : B.dropWhile p = B := by
    rw [hB]
    exact dropWhileIdem p A.reverse
  have step1 : B.reverse.dropWhile p = B.reverse := by
    apply dropWhileHeadFalse
    intro x hx
    rw [List.head?_reverse] at hx
    have hBne : B ≠ [] := by
      intro he
      rw [he] at hx
      simp at hx
    have hArevne : A.reverse.dropWhile p ≠ [] := by
      rw [← hB]
      exact hBne
    have hlast : B.getLast? = A.reverse.getLast? := by
      rw [hB]
      exact getLastDropWhile p A.reverse hArevne
    rw [hlast] at hx
    rw [List.getLast?_reverse] at hx
    exact headDropWhileNot p s x (by rw [← hA]; exact hx)
  rw [step1, List.reverse_reverse, hBdrop]

/-- A non-empty string equal to its own strip is not all-whitespace. -/
theorem strippedNotSpace (s : Str) (hs : pyStrip s = s) (hne : s ≠ []) :
    pyIsSpaceStr s = false := by
  by_cases h : s.all pyIsSpace
  · exact absurd (by rw [← hs]; exact pyStripAllSpace s h) hne
  · simp [pyIsSpaceStr]
    intro
    simpa [List.all_eq_true] using h

/-- Removing a different key does not change a lookup. -/
theorem dlookupEraseNe (d : PyDict) (k key : String) (h : key ≠ k) :
    dlookup (eraseKey d k) key = dlookup d key := by
  induction d with
  | nil => rfl
  | cons kv rest ih =>
    rcases kv with ⟨k1, v1⟩
    by_cases hk : k1 = k
    · rw [eraseKey, if_pos hk, ih, dlookup,
        if_neg (by rw [hk]; exact fun he => h he.symm)]
    · rw [eraseKey, if_neg hk, dlookup, dlookup, ih]

/-- Python `dlookup` after `dset` at the written key. -/
theorem dlookupDsetSelf (d : PyDict) (k : String) (v : PyVal) :
    dlookup (dset d k v) k = some v := by
  simp [dset, dlookup]

/-- Python `dlookup` after `dset` at any other key. -/
theorem dlookupDsetNe (d : PyDict) (k key : String) (v : PyVal) (h : key ≠ k) :
    dlookup (dset d k v) key = dlookup d key := by
  simp only [dset, dlookup]
  rw [if_neg (fun he => h he.symm)]
  exact dlookupEraseNe d k key h

/-- The status-list test of `validate_full_pipeline` holds exactly for
non-FAILED statuses. -/
theorem statusContainsIff (st : ValidationStatus) :
    ([ValidationStatus.passed, ValidationStatus.optimized,
      ValidationStatus.warning].contains st = true) ↔ st ≠ ValidationStatus.failed := by
  cases st <;> decide

/-- Case analysis of `validate_full_pipeline` along its two early exits. -/
theorem pipelineCases (v : QuoteValidator) (qd : PyDict) :
    (validateBasic v (pyStrip (dgetStr qd "quote"))).status = .failed ∧
      validateFullPipeline v qd =
        (false, [(ValidationStage.basic, validateBasic v (pyStrip (dgetStr qd "quote")))])
    ∨ ((validateBasic v (pyStrip (dgetStr qd "quote"))).status ≠ .failed ∧
       ((validateMeaningfulness v (validateBasic v (pyStrip (dgetStr qd "quote"))).quote qd).status = .failed ∧
          validateFullPipeline v qd =
            (false,
             [(ValidationStage.basic, validateBasic v (pyStrip (dgetStr qd "quote"))),
              (ValidationStage.meaningfulness,
                validateMeaningfulness v (validateBasic v (pyStrip (dgetStr qd "quote"))).quote qd)])
        ∨ ((validateMeaningfulness v (validateBasic v (pyStrip (dgetStr qd "quote"))).quote qd).status ≠ .failed ∧
           validateFullPipeline v qd =
             (let r1 := validateBasic v (pyStrip (dgetStr qd "quote"))
              let r2 := validateMeaningfulness v r1.quote qd
              let r3 := optimizeForThreads v r2.quote qd
              let r4 := validateFinalQuality v r3.quote qd
              let results := [(ValidationStage.basic, r1), (ValidationStage.meaningfulness, r2),
                (ValidationStage.threads_optimization, r3), (ValidationStage.final_quality, r4)]
              (results.all (fun p => [ValidationStatus.passed, ValidationStatus.optimized,
                ValidationStatus.warning].contains p.2.status), results))))) := by
  by_cases h1 : (validateBasic v (pyStrip (dgetStr qd "quote"))).status = .failed
  · exact Or.inl ⟨h1, by simp [validateFullPipeline, h1]⟩
  · refine Or.inr ⟨h1, ?_⟩
    by_cases h2 : (validateMeaningfulness v (validateBasic v (pyStrip (dgetStr qd "quote"))).quote qd).status = .failed
    · exact Or.inl ⟨h2, by simp [validateFullPipeline, h1, h2]⟩
    · exact Or.inr ⟨h2, by simp [validateFullPipeline, h1, h2]⟩

/-! ### Claims -/

/-- C6: `validate_full_pipeline` is a deterministic, stateless function
of the input record: it is a pure function in this embedding (it only reads
`quote_data` and builds fresh results, mirroring the Python code, which
never writes `self` or its argument), and its value does not depend on the
only piece of instance state, the `use_ai` flag — two validators with
arbitrary flags produce identical `(passed, results)` on equal inputs. -/
theorem claim_C6_pipeline_deterministic (v w : QuoteValidator) (qd : PyDict) :
    validateFullPipeline v qd = validateFullPipeline w qd := rfl

/-- C3: the pipeline applies the stages in the fixed order
basic, meaningfulness, threads_optimization, final_quality; when the basic
or the meaningfulness stage fails it stops immediately, returning `false`
with only the stages run so far (the last of which is the failed one) in
`results`; otherwise all four stages appear exactly once, and the returned
boolean is `true` exactly when no recorded stage has status FAILED. -/
theorem claim_C3_pipeline_order (v : QuoteValidator) (qd : PyDict) :
    ((validateFullPipeline v qd).1 = true ↔
      (validateFullPipeline v qd).2.all
        (fun p => p.2.status != ValidationStatus.failed) = true)
    ∧ ((validateFullPipeline v qd).2.map Prod.fst = [ValidationStage.basic] ∨
       (validateFullPipeline v qd).2.map Prod.fst =
         [ValidationStage.basic, ValidationStage.meaningfulness] ∨
       (validateFullPipeline v qd).2.map Prod.fst =
         [ValidationStage.basic, ValidationStage.meaningfulness,
          ValidationStage.threads_optimization, ValidationStage.final_quality])
    ∧ ((validateFullPipeline v qd).2.map Prod.fst ≠
         [ValidationStage.basic, ValidationStage.meaningfulness,
          ValidationStage.threads_optimization, ValidationStage.final_quality] →
        (validateFullPipeline v qd).1 = false ∧
        ((validateFullPipeline v qd).2.getLast?.map (fun p => p.2.status)) =
          some ValidationStatus.failed) := by
  rcases pipelineCases v qd with ⟨h1, heq⟩ | ⟨h1, ⟨h2, heq⟩ | ⟨h2, heq⟩⟩
  · refine ⟨?_, Or.inl ?_, fun _ => ⟨?_, ?_⟩⟩ <;> rw [heq] <;> simp [h1]
  · refine ⟨?_, Or.inr (Or.inl ?_), fun _ => ⟨?_, ?_⟩⟩ <;> rw [heq] <;> simp [h2]
  · have hmap : (validateFullPipeline v qd).2.map Prod.fst =
        [ValidationStage.basic, ValidationStage.meaningfulness,
         ValidationStage.threads_optimization, ValidationStage.final_quality] := by
      rw [heq]
      rfl
    refine ⟨?_, Or.inr (Or.inr hmap), fun hne => absurd hmap hne⟩
    rw [heq]
    simp only [List.all_eq_true]
    constructor
    · intro h p hp
      exact bne_iff_ne.2 ((statusContainsIff p.2.status).1 (h p hp))
    · intro h p hp
      exact (statusContainsIff p.2.status).2 (bne_iff_ne.1 (h p hp))

/-- For a stripped quote long enough to pass the length check, the
"empty quote" condition of `_validate_basic` is false. -/
theorem basicEmptyCondFalse (q : Str) (hq : pyStrip q = q)
    (hlen : ¬ q.length < MIN_MEANINGFUL_LENGTH) :
    (q.isEmpty || pyIsSpaceStr q) = false := by
  have hne : q ≠ [] := by
    intro he
    rw [he] at hlen
    exact hlen (by norm_num [MIN_MEANINGFUL_LENGTH])
  have h1 : q.isEmpty = false := by
    cases q with
    | nil => exact absurd rfl hne
    | cons c t => rfl
  rw [h1, strippedNotSpace q hq hne]
  rfl

/-- The basic entry of the pipeline results is always the result of
`_validate_basic` on the stripped input quote. -/
theorem rlookupBasicPipeline (v : QuoteValidator) (qd : PyDict) :
    rlookup (validateFullPipeline v qd).2 ValidationStage.basic =
      some (validateBasic v (pyStrip (dgetStr qd "quote"))) := by
  rcases pipelineCases v qd with ⟨h1, heq⟩ | ⟨h1, ⟨h2, heq⟩ | ⟨h2, heq⟩⟩ <;>
    rw [heq] <;> rfl

/-- C5: on a stripped quote, the basic stage fails exactly when the
quote is shorter than `MIN_MEANINGFUL_LENGTH = 30` characters or matches a
forbidden pattern; when it does not fail, it passes with the whitespace
normalized; and a pipeline input whose stripped quote is short or forbidden
makes `validate_full_pipeline` return `false`. -/
theorem claim_C5_basic_stage (v : QuoteValidator) (q : Str) (qd : PyDict)
    (hq : pyStrip q = q) :
    ((validateBasic v q).status = ValidationStatus.failed ↔
      (q.length < MIN_MEANINGFUL_LENGTH ∨ (!(forbiddenIdx q).isEmpty) = true))
    ∧ ((validateBasic v q).status ≠ ValidationStatus.failed →
        (validateBasic v q).status = ValidationStatus.passed ∧
        (validateBasic v q).quote = normalizeWs q)
    ∧ ((pyStrip (dgetStr qd "quote")).length < MIN_MEANINGFUL_LENGTH ∨
        (!(forbiddenIdx (pyStrip (dgetStr qd "quote"))).isEmpty) = true →
        (validateFullPipeline v qd).1 = false) := by
  have key : ∀ s : Str, pyStrip s = s →
      ((validateBasic v s).status = ValidationStatus.failed ↔
        (s.length < MIN_MEANINGFUL_LENGTH ∨ (!(forbiddenIdx s).isEmpty) = true))
      ∧ ((validateBasic v s).status ≠ ValidationStatus.failed →
          (validateBasic v s).status = ValidationStatus.passed ∧
          (validateBasic v s).quote = normalizeWs s) := by
    intro s hs
    by_cases hshort : s.length < MIN_MEANINGFUL_LENGTH
    · constructor
      · simp [validateBasic, hshort]
      · intro hcon
        exact absurd (by simp [validateBasic, hshort]) hcon
    · by_cases hforb : (!(forbiddenIdx s).isEmpty) = true
      · constructor
        · simp [validateBasic, hshort, hforb]
        · intro hcon
          exact absurd (by simp [validateBasic, hshort, hforb]) hcon
      · have hempty := basicEmptyCondFalse s hs hshort
        constructor
        · simp [validateBasic, hshort, hforb, hempty]
        · intro _
          constructor <;> simp [validateBasic, hshort, hforb, hempty, normalizeWs]
  refine ⟨(key q hq).1, (key q hq).2, fun hbad => ?_⟩
  have hfail : (validateBasic v (pyStrip (dgetStr qd "quote"))).status =
      ValidationStatus.failed :=
    (key (pyStrip (dgetStr qd "quote")) (pyStripIdem _)).1.2 hbad
  rcases pipelineCases v qd with ⟨h1, heq⟩ | ⟨h1, _⟩
  · rw [heq]
  · exact absurd hfail h1

/-- C10: the "empty quote" failure branch of `_validate_basic` is
unreachable through `validate_full_pipeline`: the pipeline strips the quote
first, so the basic-stage result it records never carries the
"Пустая цитата" message (a stripped quote that survives the length check is
non-empty and contains a non-whitespace character). -/
theorem claim_C10_empty_branch_unreachable (v : QuoteValidator) (qd : PyDict)
    (r : ValidationResult)
    (h : rlookup (validateFullPipeline v qd).2 ValidationStage.basic = some r) :
    r.message ≠ Msg.emptyQuote := by
  rw [rlookupBasicPipeline v qd] at h
  have hr : r = validateBasic v (pyStrip (dgetStr qd "quote")) :=
    (Option.some.injEq _ _ ▸ h).symm
  subst hr
  set s := pyStrip (dgetStr qd "quote") with hsdef
  have hs : pyStrip s = s := pyStripIdem _
  by_cases hshort : s.length < MIN_MEANINGFUL_LENGTH
  · have : (validateBasic v s).message = Msg.tooShort s.length MIN_MEANINGFUL_LENGTH := by
      simp [validateBasic, hshort]
    rw [this]
    intro hcon
    exact Msg.noConfusion hcon
  · by_cases hforb : (!(forbiddenIdx s).isEmpty) = true
    · have : (validateBasic v s).message = Msg.forbiddenMsg (forbiddenIdx s) := by
        simp [validateBasic, hshort, hforb]
      rw [this]
      intro hcon
      exact Msg.noConfusion hcon
    · have hempty := basicEmptyCondFalse s hs hshort
      have : (validateBasic v s).message = Msg.basicPassed := by
        simp [validateBasic, hshort, hforb, hempty]
      rw [this]
      intro hcon
      exact Msg.noConfusion hcon

/-- The sentence-accumulation loop never exceeds the Threads limit. -/
theorem buildBySentencesLen (ss : List Str) (acc : Str)
    (h : acc.length ≤ THREADS_MAX_LENGTH) :
    (buildBySentences ss acc).length ≤ THREADS_MAX_LENGTH := by
  induction ss generalizing acc with
  | nil => simpa [buildBySentences] using h
  | cons s rest ih =>
    rw [buildBySentences]
    by_cases hc : acc.length + s.length + 1 ≤ THREADS_MAX_LENGTH
    · rw [if_pos hc]
      exact ih _ (by simp only [List.length_append, List.length_cons, List.length_nil]; omega)
    · rw [if_neg hc]
      exact h

/-- The word-accumulation loop never exceeds the Threads limit minus the
three characters reserved for the ellipsis. -/
theorem buildByWordsLen (ws : List Str) (acc : Str)
    (h : acc.length ≤ THREADS_MAX_LENGTH - 3) :
    (buildByWords ws acc).length ≤ THREADS_MAX_LENGTH - 3 := by
  induction ws generalizing acc with
  | nil => simpa [buildByWords] using h
  | cons w rest ih =>
    rw [buildByWords]
    by_cases hc : acc.length + w.length + 1 ≤ THREADS_MAX_LENGTH - 3
    · rw [if_pos hc]
      exact ih _ (by simp only [List.length_append, List.length_cons, List.length_nil]; omega)
    · rw [if_neg hc]
      exact h

/-- The quote produced by `_optimize_for_threads` is never longer than
`THREADS_MAX_LENGTH`: unchanged quotes were already within the limit, the
sentence truncation keeps the running length within the limit, and the word
truncation keeps it within `limit - 3` before appending `"..."`. -/
theorem optimizeQuoteLen (v : QuoteValidator) (q : Str) (qd : PyDict) :
    (optimizeForThreads v q qd).quote.length ≤ THREADS_MAX_LENGTH := by
  rw [optimizeForThreads]
  by_cases hlong : q.length > THREADS_MAX_LENGTH
  · simp only [hlong, if_true]
    by_cases hshort : (pyStrip (buildBySentences (splitSentences q) [])).length <
        MIN_MEANINGFUL_LENGTH
    · simp only [hshort, if_true]
      have h1 : (pyStrip (buildByWords (pySplitWs q) [])).length ≤ THREADS_MAX_LENGTH - 3 :=
        le_trans (pyStripLenLe _) (buildByWordsLen _ [] (by simp [THREADS_MAX_LENGTH]))
      simp only [List.length_append]
      have h2 : (strChars "...").length = 3 := rfl
      have h500 : THREADS_MAX_LENGTH = 500 := rfl
      rw [h2]
      rw [h500] at h1 ⊢
      omega
    · simp only [hshort, if_false]
      exact le_trans (pyStripLenLe _) (buildBySentencesLen _ [] (by simp [THREADS_MAX_LENGTH]))
  · simp only [hlong, if_false]
    omega

/-- The basic-stage result recorded by a passed pipeline run. -/
def pipeR1 (v : QuoteValidator) (qd : PyDict) : ValidationResult :=
  validateBasic v (pyStrip (dgetStr qd "quote"))

/-- The meaningfulness-stage result recorded by a passed pipeline run. -/
def pipeR2 (v : QuoteValidator) (qd : PyDict) : ValidationResult :=
  validateMeaningfulness v (pipeR1 v qd).quote qd

/-- The optimization-stage result recorded by a passed pipeline run. -/
def pipeR3 (v : QuoteValidator) (qd : PyDict) : ValidationResult :=
  optimizeForThreads v (pipeR2 v qd).quote qd

/-- The final-quality result recorded by a passed pipeline run. -/
def pipeR4 (v : QuoteValidator) (qd : PyDict) : ValidationResult :=
  validateFinalQuality v (pipeR3 v qd).quote qd

/-- When the pipeline passes, its results dict holds exactly the four
stage results, in stage order. -/
theorem pipelinePassedShape (v : QuoteValidator) (qd : PyDict)
    (h : (validateFullPipeline v qd).1 = true) :
    (validateFullPipeline v qd).2 =
      [(ValidationStage.basic, pipeR1 v qd),
       (ValidationStage.meaningfulness, pipeR2 v qd),
       (ValidationStage.threads_optimization, pipeR3 v qd),
       (ValidationStage.final_quality, pipeR4 v qd)] := by
  rcases pipelineCases v qd with ⟨h1, heq⟩ | ⟨h1, ⟨h2, heq⟩ | ⟨h2, heq⟩⟩
  · rw [heq] at h
    exact absurd h (by simp)
  · rw [heq] at h
    exact absurd h (by simp)
  · rw [heq]
    rfl

/-- C1: every quote leaving the Threads-optimization stage fits the
Threads limit — both truncation paths (by sentences, and by words with the
`"..."` suffix) and the unchanged path stay within
`THREADS_MAX_LENGTH = 500` — and consequently, whenever
`get_validated_quote` returns a record, its "quote" field is a string of at
most 500 characters. -/
theorem claim_C1_threads_length (v : QuoteValidator) (q : Str) (qd out : PyDict)
    (h : getValidatedQuote v qd = some out) :
    (optimizeForThreads v q qd).quote.length ≤ THREADS_MAX_LENGTH ∧
    ∃ s : Str, dlookup out "quote" = some (.str s) ∧ s.length ≤ THREADS_MAX_LENGTH := by
  refine ⟨optimizeQuoteLen v q qd, ?_⟩
  simp only [getValidatedQuote] at h
  by_cases hp : (validateFullPipeline v qd).1 = false
  · rw [if_pos hp] at h
    exact absurd h (by simp)
  · rw [if_neg hp] at h
    have hptrue : (validateFullPipeline v qd).1 = true := by
      revert hp
      cases (validateFullPipeline v qd).1 <;> simp
    have hshape := pipelinePassedShape v qd hptrue
    have hrl : rlookup (validateFullPipeline v qd).2 ValidationStage.threads_optimization =
        some (pipeR3 v qd) := by
      rw [hshape]
      rfl
    rw [hrl] at h
    have hout := (Option.some_inj).1 h
    refine ⟨(pipeR3 v qd).quote, ?_, ?_⟩
    · rw [← hout]
      simp only [Option.getD_some, dmerge, List.foldl]
      rw [dlookupDsetNe _ _ _ _ (by decide), dlookupDsetNe _ _ _ _ (by decide),
        dlookupDsetSelf]
    · exact optimizeQuoteLen v _ qd

/-- A concrete record that passes the whole pipeline (used by witnesses). -/
def sampleQuote : Str :=
  strChars "Каждый человек способен изменить свою жизнь сегодня."

/-- A concrete input dict for the witnesses: a passing quote, an extra
"page" key, and a meta dict with a confidence score and an extra key. -/
def sampleQD : PyDict :=
  [("quote", PyVal.str sampleQuote), ("page", PyVal.int 3),
   ("meta", PyVal.dict [("confidence", PyVal.rat (9/10)),
                        ("sentiment", PyVal.str (strChars "neutral"))])]

/-- The record returned by `get_validated_quote` on the sample input. -/
def sampleOut : PyDict := (getValidatedQuote ⟨true⟩ sampleQD).getD []

/-- Witness for C1: the bound holds on the concrete validated record. -/
theorem claim_C1_witness :
    (optimizeForThreads ⟨true⟩ sampleQuote sampleQD).quote.length ≤ THREADS_MAX_LENGTH ∧
    ∃ s : Str, dlookup sampleOut "quote" = some (.str s) ∧
      s.length ≤ THREADS_MAX_LENGTH :=
  claim_C1_threads_length ⟨true⟩ sampleQuote sampleQD sampleOut (by with_unfolding_all rfl)

/-- C2: `get_validated_quote` returns `None` exactly when
`validate_full_pipeline` reports failure; otherwise it returns a record
whose "quote" and "translated" fields are both rewritten to the
Threads-optimization-stage text and whose meta carries `validated = True`,
`threads_ready = True`, and the per-stage audit trail under
"validation_stages". -/
theorem claim_C2_validated_record (v : QuoteValidator) (qd : PyDict) :
    (getValidatedQuote v qd = none ↔ (validateFullPipeline v qd).1 = false)
    ∧ (∀ out : PyDict, getValidatedQuote v qd = some out →
        ∃ r3 : ValidationResult,
          rlookup (validateFullPipeline v qd).2 ValidationStage.threads_optimization =
            some r3 ∧
          dlookup out "quote" = some (.str r3.quote) ∧
          dlookup out "translated" = some (.str r3.quote) ∧
          ∃ m : PyDict, dlookup out "meta" = some (.dict m) ∧
            dlookup m "validated" = some (.bool true) ∧
            dlookup m "threads_ready" = some (.bool true) ∧
            dlookup m "validation_stages" =
              some (.dict ((validateFullPipeline v qd).2.map stageAudit))) := by
  by_cases hp : (validateFullPipeline v qd).1 = false
  · refine ⟨⟨fun _ => hp, fun _ => by simp [getValidatedQuote, hp]⟩, fun out hout => ?_⟩
    rw [getValidatedQuote] at hout
    simp only [hp, if_pos] at hout
    exact absurd hout (by simp)
  · have hptrue : (validateFullPipeline v qd).1 = true := by
      revert hp
      cases (validateFullPipeline v qd).1 <;> simp
    have hshape := pipelinePassedShape v qd hptrue
    have hrl : rlookup (validateFullPipeline v qd).2 ValidationStage.threads_optimization =
        some (pipeR3 v qd) := by
      rw [hshape]
      rfl
    constructor
    · simp [getValidatedQuote, hp]
    · intro out hout
      simp only [getValidatedQuote] at hout
      rw [if_neg hp, hrl] at hout
      have hout2 := (Option.some_inj).1 hout
      refine ⟨pipeR3 v qd, hrl, ?_, ?_, ?_⟩
      · rw [← hout2]
        simp only [Option.getD_some, dmerge, List.foldl]
        rw [dlookupDsetNe _ _ _ _ (by decide), dlookupDsetNe _ _ _ _ (by decide),
          dlookupDsetSelf]
      · rw [← hout2]
        simp only [Option.getD_some, dmerge, List.foldl]
        rw [dlookupDsetNe _ _ _ _ (by decide), dlookupDsetSelf]
      · refine ⟨dmerge (dgetDict qd "meta")
          [("validated", .bool true),
           ("validation_score", .rat ((rlookup (validateFullPipeline v qd).2
              ValidationStage.final_quality).getD defaultResult).score),
           ("threads_ready", .bool true),
           ("final_length", .int ((pipeR3 v qd).quote.length : Int)),
           ("validation_stages", .dict ((validateFullPipeline v qd).2.map stageAudit))],
          ?_, ?_, ?_, ?_⟩
        · rw [← hout2]
          simp only [Option.getD_some, dmerge, List.foldl]
          rw [dlookupDsetSelf]
        · simp only [dmerge, List.foldl]
          rw [dlookupDsetNe _ _ _ _ (by decide), dlookupDsetNe _ _ _ _ (by decide),
            dlookupDsetNe _ _ _ _ (by decide), dlookupDsetNe _ _ _ _ (by decide),
            dlookupDsetSelf]
        · simp only [dmerge, List.foldl]
          rw [dlookupDsetNe _ _ _ _ (by decide), dlookupDsetNe _ _ _ _ (by decide),
            dlookupDsetSelf]
        · simp only [dmerge, List.foldl]
          rw [dlookupDsetSelf]

/-- Witness for C2 at the concrete passing input. -/
theorem claim_C2_witness :
    (getValidatedQuote ⟨true⟩ sampleQD = none ↔
      (validateFullPipeline ⟨true⟩ sampleQD).1 = false)
    ∧ ∃ r3 : ValidationResult,
        rlookup (validateFullPipeline ⟨true⟩ sampleQD).2
          ValidationStage.threads_optimization = some r3 ∧
        dlookup sampleOut "quote" = some (.str r3.quote) ∧
        dlookup sampleOut "translated" = some (.str r3.quote) ∧
        ∃ m : PyDict, dlookup sampleOut "meta" = some (.dict m) ∧
          dlookup m "validated" = some (.bool true) ∧
          dlookup m "threads_ready" = some (.bool true) ∧
          dlookup m "validation_stages" =
            some (.dict ((validateFullPipeline ⟨true⟩ sampleQD).2.map stageAudit)) :=
  ⟨(claim_C2_validated_record ⟨true⟩ sampleQD).1,
   (claim_C2_validated_record ⟨true⟩ sampleQD).2 sampleOut (by with_unfolding_all rfl)⟩

/-- The "meta" field, when present, is a dict (otherwise the
`{**quote_data.get("meta", {})}` splat in `get_validated_quote` would raise
a `TypeError` instead of returning). -/
def metaIsDict (qd : PyDict) : Bool :=
  match dlookup qd "meta" with
  | none => true
  | some (.dict _) => true
  | _ => false

/-- C7: on success `get_validated_quote` rewrites only the "quote",
"translated" and "meta" fields: every other key keeps its original value,
and every pre-existing meta key other than the five the validator writes
("validated", "validation_score", "threads_ready", "final_length",
"validation_stages") keeps its original value. (The input dict itself is
untouched: the embedding, like the Python code, only builds a new record
with `{**quote_data, …}`.) -/
theorem claim_C7_frame (v : QuoteValidator) (qd out : PyDict)
    (hmeta : metaIsDict qd = true)
    (h : getValidatedQuote v qd = some out) :
    (∀ k : String, k ≠ "quote" → k ≠ "translated" → k ≠ "meta" →
      dlookup out k = dlookup qd k)
    ∧ (∀ mk : String, mk ≠ "validated" → mk ≠ "validation_score" →
        mk ≠ "threads_ready" → mk ≠ "final_length" → mk ≠ "validation_stages" →
        dlookup (dgetDict out "meta") mk = dlookup (dgetDict qd "meta") mk) := by
  simp only [getValidatedQuote] at h
  by_cases hp : (validateFullPipeline v qd).1 = false
  · rw [if_pos hp] at h
    exact absurd h (by simp)
  · rw [if_neg hp] at h
    have hout := (Option.some_inj).1 h
    constructor
    · intro k hk1 hk2 hk3
      rw [← hout]
      simp only [dmerge, List.foldl]
      rw [dlookupDsetNe _ _ _ _ hk3, dlookupDsetNe _ _ _ _ hk2,
        dlookupDsetNe _ _ _ _ hk1]
    · intro mk h1 h2 h3 h4 h5
      have hm : dgetDict out "meta" = dmerge (dgetDict qd "meta")
          [("validated", .bool true),
           ("validation_score", .rat ((rlookup (validateFullPipeline v qd).2
              ValidationStage.final_quality).getD defaultResult).score),
           ("threads_ready", .bool true),
           ("final_length", .int (((rlookup (validateFullPipeline v qd).2
              ValidationStage.threads_optimization).getD defaultResult).quote.length : Int)),
           ("validation_stages", .dict ((validateFullPipeline v qd).2.map stageAudit))] := by
        rw [← hout]
        simp only [dgetDict, dmerge, List.foldl]
        rw [dlookupDsetSelf]
      rw [hm]
      simp only [dmerge, List.foldl]
      rw [dlookupDsetNe _ _ _ _ h5, dlookupDsetNe _ _ _ _ h4,
        dlookupDsetNe _ _ _ _ h3, dlookupDsetNe _ _ _ _ h2, dlookupDsetNe _ _ _ _ h1]

/-- Witness for C7: the untouched "page" key and the untouched meta key
"sentiment" of the concrete record. -/
theorem claim_C7_witness :
    dlookup sampleOut "page" = dlookup sampleQD "page" ∧
    dlookup (dgetDict sampleOut "meta") "sentiment" =
      dlookup (dgetDict sampleQD "meta") "sentiment" :=
  ⟨(claim_C7_frame ⟨true⟩ sampleQD sampleOut (by decide) (by with_unfolding_all rfl)).1
      "page" (by decide) (by decide) (by decide),
   (claim_C7_frame ⟨true⟩ sampleQD sampleOut (by decide) (by with_unfolding_all rfl)).2
      "sentiment" (by decide) (by decide) (by decide) (by decide) (by decide)⟩

/-- A concrete failing input: the stripped quote is shorter than 30
characters, so the pipeline stops after the basic stage. -/
def shortQD : PyDict := [("quote", PyVal.str (strChars "Коротко."))]

/-- Witness for C3 at a concrete failing input: the pipeline stops at a
failed stage and reports failure. -/
theorem claim_C3_witness :
    (validateFullPipeline ⟨true⟩ shortQD).1 = false ∧
    ((validateFullPipeline ⟨true⟩ shortQD).2.getLast?.map (fun p => p.2.status)) =
      some ValidationStatus.failed :=
  (claim_C3_pipeline_order ⟨true⟩ shortQD).2.2 (by with_unfolding_all decide)

/-- Membership of a product in `[0, 1]` from membership of the factors. -/
theorem mulMem01 (a b : ℚ) (ha : 0 ≤ a ∧ a ≤ 1) (hb : 0 ≤ b ∧ b ≤ 1) :
    0 ≤ a * b ∧ a * b ≤ 1 :=
  ⟨mul_nonneg ha.1 hb.1, mul_le_one₀ ha.2 hb.1 hb.2⟩

/-- The final-quality score as a product of the three optional meta
factors. -/
theorem finalScoreValue (v : QuoteValidator) (q : Str) (qd : PyDict) :
    (validateFinalQuality v q qd).score =
      (if (dlookup (dgetDict qd "meta") "confidence").isSome then
         1 * dgetRat (dgetDict qd "meta") "confidence" else 1) *
      (if (dlookup (dgetDict qd "meta") "practical_value").isSome then
         1/2 + dgetRat (dgetDict qd "meta") "practical_value" * (1/2) else 1) *
      (if (dlookup (dgetDict qd "meta") "completeness").isSome then
         7/10 + dgetRat (dgetDict qd "meta") "completeness" * (3/10) else 1) := by
  by_cases b1 : (dlookup (dgetDict qd "meta") "confidence").isSome <;>
    by_cases b2 : (dlookup (dgetDict qd "meta") "practical_value").isSome <;>
      by_cases b3 : (dlookup (dgetDict qd "meta") "completeness").isSome <;>
        (simp only [validateFinalQuality, b1, b2, b3, if_true, if_false]
         split_ifs <;> simp <;> ring)

/-- C9: every `ValidationResult` produced by the four stage functions
has a score in `[0, 1]`, provided the optional meta fields "confidence",
"practical_value" and "completeness", when present, lie in `[0, 1]`. -/
theorem claim_C9_scores_bounded (v : QuoteValidator) (q : Str) (qd : PyDict)
    (hc : 0 ≤ dgetRat (dgetDict qd "meta") "confidence" ∧
          dgetRat (dgetDict qd "meta") "confidence" ≤ 1)
    (hpv : 0 ≤ dgetRat (dgetDict qd "meta") "practical_value" ∧
           dgetRat (dgetDict qd "meta") "practical_value" ≤ 1)
    (hcm : 0 ≤ dgetRat (dgetDict qd "meta") "completeness" ∧
           dgetRat (dgetDict qd "meta") "completeness" ≤ 1) :
    (0 ≤ (validateBasic v q).score ∧ (validateBasic v q).score ≤ 1)
    ∧ (0 ≤ (validateMeaningfulness v q qd).score ∧
        (validateMeaningfulness v q qd).score ≤ 1)
    ∧ (0 ≤ (optimizeForThreads v q qd).score ∧ (optimizeForThreads v q qd).score ≤ 1)
    ∧ (0 ≤ (validateFinalQuality v q qd).score ∧
        (validateFinalQuality v q qd).score ≤ 1) := by
  refine ⟨?_, ?_, ?_, ?_⟩
  · simp only [validateBasic]
    split_ifs <;> dsimp only <;> norm_num
  · rw [validateMeaningfulness]
    simp only [apply_ite ValidationResult.score, ite_self]
    split_ifs <;> norm_num
  · rw [optimizeForThreads]
    simp only [apply_ite ValidationResult.score, ite_self]
    split_ifs <;> norm_num
  · rw [finalScoreValue]
    have hf1 : 0 ≤ (if (dlookup (dgetDict qd "meta") "confidence").isSome then
        1 * dgetRat (dgetDict qd "meta") "confidence" else 1) ∧
        (if (dlookup (dgetDict qd "meta") "confidence").isSome then
        1 * dgetRat (dgetDict qd "meta") "confidence" else 1) ≤ 1 := by
      split_ifs
      · rw [one_mul]
        exact hc
      · norm_num
    have hf2 : 0 ≤ (if (dlookup (dgetDict qd "meta") "practical_value").isSome then
        1/2 + dgetRat (dgetDict qd "meta") "practical_value" * (1/2) else 1) ∧
        (if (dlookup (dgetDict qd "meta") "practical_value").isSome then
        1/2 + dgetRat (dgetDict qd "meta") "practical_value" * (1/2) else 1) ≤ 1 := by
      split_ifs
      · constructor <;> linarith [hpv.1, hpv.2]
      · norm_num
    have hf3 : 0 ≤ (if (dlookup (dgetDict qd "meta") "completeness").isSome then
        7/10 + dgetRat (dgetDict qd "meta") "completeness" * (3/10) else 1) ∧
        (if (dlookup (dgetDict qd "meta") "completeness").isSome then
        7/10 + dgetRat (dgetDict qd "meta") "completeness" * (3/10) else 1) ≤ 1 := by
      split_ifs
      · constructor <;> linarith [hcm.1, hcm.2]
      · norm_num
    exact mulMem01 _ _ (mulMem01 _ _ hf1 hf2) hf3

/-- Witness for C5: on the concrete passing quote the basic stage does not
fail and normalizes whitespace; on the concrete short input the pipeline
reports failure. -/
theorem claim_C5_witness :
    ((validateBasic ⟨true⟩ sampleQuote).status = ValidationStatus.passed ∧
      (validateBasic ⟨true⟩ sampleQuote).quote = normalizeWs sampleQuote) ∧
    (validateFullPipeline ⟨true⟩ shortQD).1 = false :=
  ⟨(claim_C5_basic_stage ⟨true⟩ sampleQuote shortQD
      (by with_unfolding_all decide)).2.1 (by with_unfolding_all decide),
   (claim_C5_basic_stage ⟨true⟩ sampleQuote shortQD
      (by with_unfolding_all decide)).2.2 (by with_unfolding_all decide)⟩

/-- Witness for C9 at the concrete input (confidence 9/10 present, the
other two meta fields absent). -/
theorem claim_C9_witness :
    (0 ≤ (validateBasic ⟨true⟩ sampleQuote).score ∧
      (validateBasic ⟨true⟩ sampleQuote).score ≤ 1)
    ∧ (0 ≤ (validateMeaningfulness ⟨true⟩ sampleQuote sampleQD).score ∧
        (validateMeaningfulness ⟨true⟩ sampleQuote sampleQD).score ≤ 1)
    ∧ (0 ≤ (optimizeForThreads ⟨true⟩ sampleQuote sampleQD).score ∧
        (optimizeForThreads ⟨true⟩ sampleQuote sampleQD).score ≤ 1)
    ∧ (0 ≤ (validateFinalQuality ⟨true⟩ sampleQuote sampleQD).score ∧
        (validateFinalQuality ⟨true⟩ sampleQuote sampleQD).score ≤ 1) :=
  claim_C9_scores_bounded ⟨true⟩ sampleQuote sampleQD
    (by with_unfolding_all decide) (by with_unfolding_all decide)
    (by with_unfolding_all decide)

/-- The basic-stage result of the pipeline on the sample input. -/
def sampleBasicResult : ValidationResult :=
  (rlookup (validateFullPipeline ⟨true⟩ sampleQD).2 ValidationStage.basic).getD
    defaultResult

/-- Witness for C10: the recorded basic result of the concrete run does not
carry the "Пустая цитата" message. -/
theorem claim_C10_witness : sampleBasicResult.message ≠ Msg.emptyQuote :=
  claim_C10_empty_branch_unreachable ⟨true⟩ sampleQD sampleBasicResult
    (by with_unfolding_all rfl)

/-- Every record kept by `dedupQuotes` has its key outside `seen`. -/
theorem dedupQuotesKeyNotSeen (l : List PyDict) (seen : List Str) (x : PyDict)
    (hx : x ∈ dedupQuotes l seen) : quoteKey x ∉ seen := by
  induction l generalizing seen with
  | nil => simp [dedupQuotes] at hx
  | cons q rest ih =>
    rw [dedupQuotes] at hx
    by_cases hq : quoteKey q ∈ seen
    · rw [if_pos hq] at hx
      exact ih seen hx
    · rw [if_neg hq] at hx
      rcases List.mem_cons.1 hx with he | hm
      · subst he
        exact hq
      · have hnot := ih (quoteKey q :: seen) hm
        intro hxseen
        exact hnot (List.mem_cons_of_mem _ hxseen)

/-- The records kept by `dedupQuotes` have pairwise distinct keys. -/
theorem dedupQuotesPairwiseKey (l : List PyDict) (seen : List Str) :
    (dedupQuotes l seen).Pairwise (fun a b => quoteKey a ≠ quoteKey b) := by
  induction l generalizing seen with
  | nil => simp [dedupQuotes]
  | cons q rest ih =>
    rw [dedupQuotes]
    by_cases hq : quoteKey q ∈ seen
    · rw [if_pos hq]
      exact ih seen
    · rw [if_neg hq]
      refine List.Pairwise.cons ?_ (ih _)
      intro b hb he
      exact dedupQuotesKeyNotSeen rest _ b hb (by rw [← he]; exact List.mem_cons_self _ _)

/-- Python `dedupQuotes` returns a sublist of its input. -/
theorem dedupQuotesSublist (l : List PyDict) (seen : List Str) :
    (dedupQuotes l seen).Sublist l := by
  induction l generalizing seen with
  | nil => simp [dedupQuotes]
  | cons q rest ih =>
    rw [dedupQuotes]
    by_cases hq : quoteKey q ∈ seen
    · rw [if_pos hq]
      exact (ih seen).cons q
    · rw [if_neg hq]
      exact (ih _).cons₂ q

/-- On a confidence-sorted list, `dedupQuotes` keeps, for the key of every
input record, a record at least as confident. -/
theorem dedupQuotesCovers (l : List PyDict) (seen : List Str)
    (hs : l.Pairwise confGeQ) (q : PyDict) (hq : q ∈ l) :
    quoteKey q ∈ seen ∨
    ∃ q2 ∈ dedupQuotes l seen, quoteKey q2 = quoteKey q ∧ getConf q ≤ getConf q2 := by
  induction l generalizing seen with
  | nil => simp at hq
  | cons x rest ih =>
    rw [dedupQuotes]
    rcases List.mem_cons.1 hq with he | hm
    · subst he
      by_cases hx : quoteKey q ∈ seen
      · exact Or.inl hx
      · right
        rw [if_neg hx]
        exact ⟨q, List.mem_cons_self _ _, rfl, le_refl _⟩
    · by_cases hx : quoteKey x ∈ seen
      · rw [if_pos hx]
        exact ih seen hs.of_cons hm
      · rw [if_neg hx]
        rcases ih (quoteKey x :: seen) hs.of_cons hm with hseen | ⟨q2, hq2, hk, hcf⟩
        · rcases List.mem_cons.1 hseen with hkey | hseen2
          · right
            exact ⟨x, List.mem_cons_self _ _, hkey.symm,
              List.rel_of_pairwise_cons hs hm⟩
          · exact Or.inl hseen2
        · right
          exact ⟨q2, List.mem_cons_of_mem _ hq2, hk, hcf⟩

/-- C4: `extract_smart_quotes` returns a list with no two entries whose
stripped quote texts coincide, ordered by meta confidence non-increasingly
(`confGeQ`); and for every accumulated candidate record there is a returned
record with the same stripped quote text and at-least-as-high confidence
(so each duplicated text keeps an entry of maximal confidence). -/
theorem claim_C4_dedup_sorted (oracle : QualityOracle) (chunks : List Str)
    (pages : List Int) :
    (extractSmartQuotes oracle chunks pages).Pairwise
      (fun a b => quoteKey a ≠ quoteKey b)
    ∧ (extractSmartQuotes oracle chunks pages).Pairwise confGeQ
    ∧ ∀ q ∈ allQuotes oracle chunks pages,
        ∃ q2 ∈ extractSmartQuotes oracle chunks pages,
          quoteKey q2 = quoteKey q ∧ getConf q ≤ getConf q2 := by
  have hsorted : (List.insertionSort confGeQ (allQuotes oracle chunks pages)).Pairwise
      confGeQ := List.sorted_insertionSort confGeQ _
  refine ⟨dedupQuotesPairwiseKey _ _, ?_, ?_⟩
  · exact List.Pairwise.sublist (dedupQuotesSublist _ _) hsorted
  · intro q hq
    have hmem : q ∈ List.insertionSort confGeQ (allQuotes oracle chunks pages) :=
      (List.perm_insertionSort confGeQ _).mem_iff.2 hq
    rcases dedupQuotesCovers _ [] hsorted q hmem with hseen | hcov
    · simp at hseen
    · exact hcov

/-- C8: `analyze_paragraph` returns at most 3 analyses, none of POOR
quality, sorted by confidence non-increasingly (`confGe`); an empty or
whitespace-only paragraph yields the empty list. This holds for every
quality oracle, i.e. whatever the LLM-backed `_analyze_quote_quality`
answers. -/
theorem claim_C8_analyze_paragraph (oracle : QualityOracle) (paragraph : Str)
    (page : Option Int) :
    (analyzeParagraph oracle paragraph page).length ≤ 3
    ∧ (∀ a ∈ analyzeParagraph oracle paragraph page, a.quality ≠ QuoteQuality.poor)
    ∧ (analyzeParagraph oracle paragraph page).Pairwise confGe
    ∧ ((pyStrip paragraph).isEmpty = true → analyzeParagraph oracle paragraph page = []) := by
  by_cases hempty : (pyStrip paragraph).isEmpty = true
  · refine ⟨?_, ?_, ?_, fun _ => ?_⟩ <;> simp [analyzeParagraph, hempty]
  · rw [analyzeParagraph, if_neg hempty]
    set analyzed := ((extractQuoteCandidates (cleanText paragraph)
        (analyzeParagraphShape (cleanText paragraph))).map
          (fun c => oracle c (cleanText paragraph) page)).filter
        (fun a => a.quality != QuoteQuality.poor) with hanalyzed
    have hsorted : (List.insertionSort confGe analyzed).Pairwise confGe :=
      List.sorted_insertionSort confGe _
    refine ⟨?_, ?_, ?_, fun hcon => absurd hcon hempty⟩
    · calc ((List.insertionSort confGe analyzed).take 3).length
          = min 3 (List.insertionSort confGe analyzed).length := List.length_take _ _
        _ ≤ 3 := min_le_left _ _
    · intro a ha
      have hmem : a ∈ List.insertionSort confGe analyzed :=
        List.Sublist.mem ha (List.take_sublist _ _)
      have hfil : a ∈ analyzed := (List.perm_insertionSort confGe _).mem_iff.1 hmem
      rw [hanalyzed] at hfil
      have := List.of_mem_filter hfil
      exact bne_iff_ne.1 this
    · exact List.Pairwise.sublist (List.take_sublist _ _) hsorted

/-- A concrete quality oracle for the extractor witnesses: quality `good`,
confidence proportional to the candidate length. -/
def sampleOracle : QualityOracle := fun text _ctx _page =>
  { text := text, quote_type := .specific_quote, quality := .good,
    confidence := (text.length : ℚ) / 1000, context_score := 1/2,
    practical_value := 1/2, completeness := 1/2,
    target_audience := strChars "general", category := strChars "general",
    sentiment := strChars "neutral", reasoning := [] }

/-- A concrete two-paragraph chunk for the extractor witnesses. -/
def sampleChunk : Str :=
  strChars "Важно понимать, что воронка продаж помогает бизнесу расти. Нужно строить систему правильно.\n\nВторой абзац про успех и результат. Можно достичь многого."

/-- Witness for C4 at the concrete oracle and chunk. -/
theorem claim_C4_witness :
    (extractSmartQuotes sampleOracle [sampleChunk] [1]).Pairwise
      (fun a b => quoteKey a ≠ quoteKey b)
    ∧ (extractSmartQuotes sampleOracle [sampleChunk] [1]).Pairwise confGeQ
    ∧ ∃ q2 ∈ extractSmartQuotes sampleOracle [sampleChunk] [1],
        quoteKey q2 = quoteKey ((allQuotes sampleOracle [sampleChunk] [1]).headD []) ∧
        getConf ((allQuotes sampleOracle [sampleChunk] [1]).headD []) ≤ getConf q2 := by
  have hthm := claim_C4_dedup_sorted sampleOracle [sampleChunk] [1]
  refine ⟨hthm.1, hthm.2.1, ?_⟩
  have h0 : (allQuotes sampleOracle [sampleChunk] [1]).length ≠ 0 := by
    with_unfolding_all decide
  rcases hl : allQuotes sampleOracle [sampleChunk] [1] with _ | ⟨q0, rest⟩
  · rw [hl] at h0
    exact absurd rfl h0
  · have hm : q0 ∈ allQuotes sampleOracle [sampleChunk] [1] := by
      rw [hl]
      exact List.mem_cons_self _ _
    rw [List.headD_cons]
    exact hthm.2.2 q0 hm

/-- Witness for C8: the concrete non-empty paragraph yields at most three
analyses, and the whitespace-only paragraph yields none. -/
theorem claim_C8_witness :
    (analyzeParagraph sampleOracle sampleChunk none).length ≤ 3 ∧
    analyzeParagraph sampleOracle (strChars "   ") none = [] :=
  ⟨(claim_C8_analyze_paragraph sampleOracle sampleChunk none).1,
   (claim_C8_analyze_paragraph sampleOracle (strChars "   ") none).2.2.2
     (by with_unfolding_all rfl)⟩
